import Mathlib

/-!
Shallow embedding of the gorc repository (a Go logging utility library):
the request-identifier generator (`src/request/request.go`), the two
logger-configuration pipelines (`src/log.go`, package `gorc`, and
`src/logger/logger.go`, package `logger`), and the path/timestamp
rendering they share.  Machine integers are modelled as `Nat` with an
explicit `% 2^64` where the Go code uses `uint64` arithmetic.
-/

/-! ## Decimal rendering (embeds Go's `fmt.Sprintf` `%d`-family verbs) -/

/-- Little-endian decimal digits of `n`; `fuel` bounds the recursion and is
always instantiated with `n` itself. -/
def decReprAux : Nat → Nat → List Nat
  | 0, _ => []
  | _ + 1, 0 => []
  | fuel + 1, n + 1 => ((n + 1) % 10) :: decReprAux fuel ((n + 1) / 10)

/-- Big-endian decimal digits of `n` (the digits `%d` prints). -/
def decRepr (n : Nat) : List Nat :=
  if n = 0 then [0] else (decReprAux n n).reverse

/-- The ASCII character of a single decimal digit. -/
def digitChar (d : Nat) : Char := Char.ofNat (48 + d)

/-- Inverse of `digitChar` on decimal digits. -/
def charToDigit (c : Char) : Nat := c.toNat - 48

/-- Go's `%0wd` as a string: decimal digits of `n`, zero-padded on the left
to at least width `w`. -/
def padString (w n : Nat) : String := String.mk (List.replicate (w - (decRepr n).length) '0' ++ (decRepr n).map digitChar)

/-- Zero-padded six-digit rendering, Go's `%06d` in `RequestID`. -/
def pad6 (n : Nat) : List Char := List.replicate (6 - (decRepr n).length) '0' ++ (decRepr n).map digitChar

/-- Value of a big-endian digit list (used to invert `decRepr`). -/
def foldVal (l : List Nat) : Nat := l.foldl (fun a d => 10 * a + d) 0

/-- Value of a little-endian digit list. -/
def ofDigitsLE : List Nat → Nat
  | [] => 0
  | d :: ds => d + 10 * ofDigitsLE ds

theorem decReprAux_spec : ∀ fuel n, n ≤ fuel → ofDigitsLE (decReprAux fuel n) = n := by
  intro fuel
  induction fuel with
  | zero => intro n h; interval_cases n; rfl
  | succ fuel ih =>
    intro n h
    match n with
    | 0 => rfl
    | m + 1 =>
      have hdiv : (m + 1) / 10 ≤ fuel := by
        have := Nat.div_lt_self (Nat.succ_pos m) (by norm_num : 1 < 10)
        omega
      simp only [decReprAux, ofDigitsLE, ih _ hdiv]
      omega

theorem foldVal_reverse_eq_ofDigitsLE : ∀ l : List Nat, foldVal l.reverse = ofDigitsLE l := by
  intro l
  induction l with
  | nil => rfl
  | cons d ds ih =>
    simp only [foldVal, List.reverse_cons, List.foldl_append, List.foldl_cons, List.foldl_nil,
      ofDigitsLE]
    simp only [foldVal] at ih
    omega

theorem foldVal_decRepr (n : Nat) : foldVal (decRepr n) = n := by
  unfold decRepr
  by_cases h : n = 0
  · subst h; rfl
  · simp only [h, if_false]
    rw [foldVal_reverse_eq_ofDigitsLE]
    exact decReprAux_spec n n (Nat.le_refl n)

theorem foldVal_replicate_zero_append (k : Nat) (l : List Nat) :
    foldVal (List.replicate k 0 ++ l) = foldVal l := by
  unfold foldVal
  rw [List.foldl_append]
  have : List.foldl (fun a d => 10 * a + d) 0 (List.replicate k 0) = 0 := by
    induction k with
    | zero => rfl
    | succ k ih => simpa [List.replicate_succ] using ih
  rw [this]

theorem decReprAux_digits_lt : ∀ fuel n d, d ∈ decReprAux fuel n → d < 10 := by
  intro fuel
  induction fuel with
  | zero => intro n d h; simp [decReprAux] at h
  | succ fuel ih =>
    intro n d h
    match n with
    | 0 => simp [decReprAux] at h
    | m + 1 =>
      simp only [decReprAux, List.mem_cons] at h
      rcases h with h | h
      · subst h; exact Nat.mod_lt _ (by norm_num)
      · exact ih _ _ h

theorem decRepr_digits_lt (n d : Nat) (h : d ∈ decRepr n) : d < 10 := by
  unfold decRepr at h
  by_cases hn : n = 0
  · simp [hn] at h; omega
  · simp only [hn, if_false, List.mem_reverse] at h
    exact decReprAux_digits_lt n n d h

theorem charToDigit_digitChar (d : Nat) (h : d < 10) : charToDigit (digitChar d) = d := by
  interval_cases d <;> decide

theorem pad6_inj (a b : Nat) (h : pad6 a = pad6 b) : a = b := by
  have hmap := congrArg (List.map charToDigit) h
  simp only [pad6, List.map_append, List.map_replicate, List.map_map] at hmap
  have hz : charToDigit '0' = 0 := by decide
  rw [hz] at hmap
  have ha : List.map (charToDigit ∘ digitChar) (decRepr a) = decRepr a := by
    rw [show (charToDigit ∘ digitChar) = fun d => charToDigit (digitChar d) from rfl]
    rw [List.map_congr_left fun d hd => charToDigit_digitChar d (decRepr_digits_lt a d hd)]
    exact List.map_id _
  have hb : List.map (charToDigit ∘ digitChar) (decRepr b) = decRepr b := by
    rw [show (charToDigit ∘ digitChar) = fun d => charToDigit (digitChar d) from rfl]
    rw [List.map_congr_left fun d hd => charToDigit_digitChar d (decRepr_digits_lt b d hd)]
    exact List.map_id _
  rw [ha, hb] at hmap
  have := congrArg foldVal hmap
  rwa [foldVal_replicate_zero_append, foldVal_replicate_zero_append,
    foldVal_decRepr, foldVal_decRepr] at this

/-! ## Identifier generator (embeds `RequestID`, src/request/request.go)

`RequestID` reads the hostname (falling back to `"localhost"` on error or
empty result), draws 12 bytes from `crypto/rand`, base64-encodes them with
the standard alphabet, deletes every `+` and `/`, repeats until at least 10
characters survive, and returns `hostname ++ b64[0:10] ++ "-" ++ %06d` of
`atomic.AddUint64(&reqid, 1)`.  The random source is modelled as a list of
read results: `some bytes` is a successful 12-byte read, `none` a read that
returns an error and leaves the buffer untouched (the Go code discards the
error).  The process-wide `uint64` counter starts at zero, so the value
formatted into the `k`-th identifier is `k % 2^64`. -/

/-- The standard base64 alphabet, in encoding order. -/
def b64Alphabet : List Char :=
  "ABCDEFGHIJKLMNOPQRSTUVWXYZabcdefghijklmnopqrstuvwxyz0123456789+/".data

/-- Six-bit groups of a byte list, three bytes at a time (the byte values
are reduced `% 256` as Go bytes; `RequestID`'s buffer is always 12 bytes,
a multiple of 3, so no padding case arises). -/
def toSextets : List Nat → List Nat
  | b1 :: b2 :: b3 :: rest =>
    (b1 % 256) / 4 ::
    ((b1 % 256) % 4 * 16 + (b2 % 256) / 16) ::
    ((b2 % 256) % 16 * 4 + (b3 % 256) / 64) ::
    ((b3 % 256) % 64) ::
    toSextets rest
  | _ => []

/-- `base64.StdEncoding.EncodeToString` on a byte list whose length is a
multiple of three. -/
def b64EncodeChars (bytes : List Nat) : List Char :=
  (toSextets bytes).map (fun i => b64Alphabet.getD i 'A')

/-- `strings.NewReplacer("+", "", "/", "").Replace`: delete all `+` and `/`. -/
def stripPlusSlash (cs : List Char) : List Char :=
  cs.filter (fun c => !(c == '+') && !(c == '/'))

/-- The `for len(b64) < 10` loop of `RequestID`: read into the buffer
(a failed read leaves it unchanged), encode, strip, retry until at least 10
characters remain; `none` when the modelled source is exhausted (the Go
loop would spin forever). The caller keeps `b64[0:10]`. -/
def genB64Loop (buf : List Nat) : List (Option (List Nat)) → Option (List Char)
  | [] => none
  | r :: rest =>
    if 10 ≤ (stripPlusSlash (b64EncodeChars (r.getD buf))).length then
      some ((stripPlusSlash (b64EncodeChars (r.getD buf))).take 10)
    else genB64Loop (r.getD buf) rest

/-- `2^64`, the modulus of Go's `uint64`. -/
def uint64Mod : Nat := 18446744073709551616

/-- The counter value `atomic.AddUint64(&reqid, 1)` returns on the `k`-th
call of the process (the counter starts at zero and wraps at `2^64`). -/
def counterValue (k : Nat) : Nat := k % uint64Mod

/-- Hostname resolution of `RequestID`: `os.Hostname()`, with `"localhost"`
substituted when the lookup errors or returns the empty string. -/
def resolveHost (host : String) (hostErr : Bool) : String :=
  if host == "" || hostErr then "localhost" else host

/-- `RequestID` for the `k`-th call of the process: hostname (or fallback),
the 10 surviving base64 characters, `'-'`, and the `%06d`-rendered counter.
No separator is inserted between the hostname and the random characters
(`gorc.StringBuilder(hostname, b64[0:10])` concatenates them directly). -/
def RequestID (host : String) (hostErr : Bool) (src : List (Option (List Nat)))
    (k : Nat) : Option String :=
  match genB64Loop (List.replicate 12 0) src with
  | none => none
  | some r => some (String.mk ((resolveHost host hostErr).data ++ r ++ '-' :: pad6 (counterValue k)))

theorem b64Alphabet_getD_mem (i : Nat) : b64Alphabet.getD i 'A' ∈ b64Alphabet := by
  by_cases h : i < b64Alphabet.length
  · rw [List.getD_eq_getElem _ _ h]
    exact List.getElem_mem h
  · rw [List.getD_eq_default _ _ (Nat.le_of_not_lt h)]
    decide

theorem mem_b64EncodeChars (bytes : List Nat) (c : Char) (h : c ∈ b64EncodeChars bytes) :
    c ∈ b64Alphabet := by
  unfold b64EncodeChars at h
  obtain ⟨i, _, rfl⟩ := List.mem_map.mp h
  exact b64Alphabet_getD_mem i

theorem genB64Loop_length : ∀ (src : List (Option (List Nat))) (buf : List Nat) (r : List Char),
    genB64Loop buf src = some r → r.length = 10 := by
  intro src
  induction src with
  | nil => intro buf r h; simp [genB64Loop] at h
  | cons a rest ih =>
    intro buf r h
    unfold genB64Loop at h
    split at h
    · rename_i hlen
      obtain rfl := (Option.some.injEq _ _).mp h.symm
      simp [List.length_take, Nat.min_eq_left hlen]
    · exact ih _ r h

theorem genB64Loop_chars : ∀ (src : List (Option (List Nat))) (buf : List Nat) (r : List Char),
    genB64Loop buf src = some r →
    ∀ c ∈ r, c ∈ b64Alphabet ∧ c ≠ '+' ∧ c ≠ '/' := by
  intro src
  induction src with
  | nil => intro buf r h; simp [genB64Loop] at h
  | cons a rest ih =>
    intro buf r h c hc
    unfold genB64Loop at h
    split at h
    · obtain rfl := (Option.some.injEq _ _).mp h.symm
      have hmemf := List.take_subset 10 _ hc
      have := List.mem_filter.mp hmemf
      obtain ⟨hmem, hpred⟩ := this
      refine ⟨mem_b64EncodeChars _ _ hmem, ?_, ?_⟩
      · intro hplus; subst hplus; simp at hpred
      · intro hslash; subst hslash; simp at hpred
    · exact ih _ r h c hc

/-! ## Calendar and timestamp rendering

`src/log.go` and `src/logger/logger.go` render `time.Now().In(loc)` with
the fixed layouts `"2006-01-02"` (log file names) and
`"2006/01/02 15:04:05"` (record timestamps).  Instants are modelled as
seconds since the Unix epoch; a `*time.Location` is modelled as its fixed
UTC offset in seconds (`Asia/Jakarta` is UTC+7 year-round). -/

/-- Civil date (year, month, day) of a day count since 1970-01-01,
the standard days-to-civil conversion. -/
def civilFromDays (days : Nat) : Nat × Nat × Nat :=
  let z := days + 719468
  let era := z / 146097
  let doe := z % 146097
  let yoe := (doe - doe / 1460 + doe / 36524 - doe / 146096) / 365
  let y := yoe + era * 400
  let doy := doe - (365 * yoe + yoe / 4 - yoe / 100)
  let mp := (5 * doy + 2) / 153
  let d := doy - (153 * mp + 2) / 5 + 1
  let m := if mp < 10 then mp + 3 else mp - 9
  (if m ≤ 2 then y + 1 else y, m, d)

/-- Civil date of an epoch-second count (already shifted into a zone). -/
def dateOfEpoch (secs : Nat) : Nat × Nat × Nat := civilFromDays (secs / 86400)

/-- The fixed offset of `Asia/Jakarta` (WIB, UTC+7), the zone both loggers
load by default. -/
def jakartaOffset : Nat := 25200

/-- `str.StringBuilder` / `gorc.Join` (src/unnamed `string` helpers):
concatenation of the given strings in order via `strings.Builder`. -/
def stringBuilder (parts : List String) : String :=
  parts.foldl (fun sb s => sb ++ s) ""

/-- Go layout `"2006-01-02"` (`StdLogFile` / `LStdFile`) applied to the
civil date of zone-shifted epoch seconds. -/
def formatStdLogFile (secs : Nat) : String :=
  stringBuilder [padString 4 (dateOfEpoch secs).1, "-",
    padString 2 (dateOfEpoch secs).2.1, "-", padString 2 (dateOfEpoch secs).2.2]

/-- Go layout `"2006/01/02 15:04:05"` (`StdLogTime` / `LStdTime`) applied to
the civil date-time of zone-shifted epoch seconds. -/
def formatStdLogTime (secs : Nat) : String :=
  stringBuilder [padString 4 (dateOfEpoch secs).1, "/",
    padString 2 (dateOfEpoch secs).2.1, "/", padString 2 (dateOfEpoch secs).2.2, " ",
    padString 2 (secs % 86400 / 3600), ":", padString 2 (secs % 86400 % 3600 / 60), ":",
    padString 2 (secs % 60)]

/-! ## Log file path derivation

`makeLogFile` (identical in src/log.go and src/logger/logger.go): the file
name is `<date>.log` built from the zone-shifted current time, prefixed
with `<pfx>-` when the prefix is non-empty, and joined to the directory
with `/`.  `create` in package `gorc` (src/log.go) substitutes the default
directory `"log"` for an empty directory; `create` in package `logger`
(src/logger/logger.go) has no such default and returns the directory
unchanged (both only ensure the directory exists on disk otherwise). -/

/-- `makeLogFile(dir, pfx, loc)` at current instant `now` (epoch seconds)
with zone offset `off`. -/
def makeLogFile (dir pfx : String) (off now : Nat) : String :=
  if pfx ≠ "" then
    stringBuilder [dir, "/", pfx, "-", stringBuilder [formatStdLogFile (now + off), ".", "log"]]
  else
    stringBuilder [dir, "/", stringBuilder [formatStdLogFile (now + off), ".", "log"]]

/-- `create` of package `gorc` (src/log.go): empty directory becomes the
default `"log"`; directory creation on disk is an external effect. -/
def gorcCreate (dir : String) : String := if dir = "" then "log" else dir

/-- `create` of package `logger` (src/logger/logger.go): returns the
directory unchanged (no empty-directory default). -/
def loggerCreate (dir : String) : String := dir

/-! ## Zap configuration derivation

`zap.Config` is modelled by the fields the repository sets: minimum level,
development flag, caller suppression, sampling, encoding, initial fields,
and the two sink lists.  Zap levels are integers (`debug = -1`, `info = 0`,
`warn = 1`, `error = 2`, `fatal = 5`); a record is emitted only when its
level is at least the configured minimum. -/

inductive Level where
  | debug | info | warn | error | fatal
deriving DecidableEq

def Level.toInt : Level → Int
  | .debug => -1
  | .info => 0
  | .warn => 1
  | .error => 2
  | .fatal => 5

structure Sampling where
  initial : Nat
  thereafter : Nat
deriving DecidableEq

inductive Encoding where
  | json | console
deriving DecidableEq

structure ZapConfig where
  level : Level
  development : Bool
  disableCaller : Bool
  sampling : Option Sampling
  encoding : Encoding
  initialFields : List (String × String)
  outputPaths : List String
  errorOutputPaths : List String
deriving DecidableEq

/-- The level gate of the logging engine: a record at `lvl` is emitted iff
`lvl` is at least the configured minimum level. -/
def levelEnabled (cfg : ZapConfig) (lvl : Level) : Bool :=
  cfg.level.toInt ≤ lvl.toInt

/-- The production base configuration built inline by `newConfig` in
src/log.go: info level, JSON encoding, sampling 100/100. -/
def prodBaseConfig : ZapConfig :=
  ⟨.info, false, false, some ⟨100, 100⟩, .json, [], [], []⟩

/-- The development base configuration built inline by `newConfig` in
src/log.go: debug level, console encoding, caller suppressed, no
sampling. -/
def devBaseConfig : ZapConfig :=
  ⟨.debug, true, true, none, .console, [], [], []⟩

/-- `zap.NewProductionConfig()` (external collaborator, used by `newConfig`
in src/logger/logger.go): info level, JSON, sampling 100/100, sinks
`stderr`. -/
def zapNewProductionConfig : ZapConfig :=
  ⟨.info, false, false, some ⟨100, 100⟩, .json, [], ["stderr"], ["stderr"]⟩

/-- `zap.NewDevelopmentConfig()` (external collaborator, used by `newConfig`
in src/logger/logger.go): debug level, console, development, no sampling. -/
def zapNewDevelopmentConfig : ZapConfig :=
  ⟨.debug, true, false, none, .console, [], ["stderr"], ["stderr"]⟩

/-- The field-injection policy shared verbatim by both `newConfig`
implementations: `var used bool; if RefID != "" { used = true; if
WithTrace { trace+ref } else { ref } }; if WithTrace && !used { trace }`.
`traceVal` is the freshly generated `RequestID()` value. -/
def injectedInitialFields (withTrace : Bool) (refID traceVal : String) :
    List (String × String) :=
  if refID ≠ "" then
    if withTrace then [("trace-id", traceVal), ("ref-id", refID)]
    else [("ref-id", refID)]
  else
    if withTrace then [("trace-id", traceVal)] else []

/-- `LogOptions` of package `gorc` (src/log.go). -/
structure GorcLogOptions where
  development : Bool
  withTrace : Bool
  refID : String
  outputFile : List String

/-- `LogOptions.newConfig` of package `gorc` (src/log.go): pick the base by
the development flag, inject the initial fields, set both sink lists to the
log file followed by every extra output in order. -/
def gorcNewConfig (opt : GorcLogOptions) (logFile traceVal : String) : ZapConfig :=
  let base := if opt.development then devBaseConfig else prodBaseConfig
  { base with
    initialFields := injectedInitialFields opt.withTrace opt.refID traceVal,
    outputPaths := logFile :: opt.outputFile,
    errorOutputPaths := logFile :: opt.outputFile }

/-- `LLvlDevelopment = 1` (src/logger/logger.go). -/
def LLvlDevelopment : Int := 1

/-- `LLvlProduction = 2` (src/logger/logger.go). -/
def LLvlProduction : Int := 2

/-- `LogOptions` of package `logger` (src/logger/logger.go); the time
location is its UTC offset, `none` meaning unset. -/
structure LoggerPkgOptions where
  level : Int
  timeOffset : Option Nat
  withTrace : Bool
  refID : String
  outputFile : List String

/-- `LogOptions.newConfig` of package `logger` (src/logger/logger.go):
`opt.Level > LLvlDevelopment` picks the zap production config, anything
else the development config; field injection and sink fan-out are the same
as in package `gorc`. -/
def loggerNewConfig (opt : LoggerPkgOptions) (logFile traceVal : String) : ZapConfig :=
  let base := if opt.level > LLvlDevelopment then zapNewProductionConfig
    else zapNewDevelopmentConfig
  { base with
    initialFields := injectedInitialFields opt.withTrace opt.refID traceVal,
    outputPaths := logFile :: opt.outputFile,
    errorOutputPaths := logFile :: opt.outputFile }

/-! ## Timestamp encoder

Both `newConfig` implementations install
`func(t time.Time, e zapcore.PrimitiveArrayEncoder) {
  e.AppendString(time.Now().In(localTime).Format(StdLogTime)) }`:
the record's own time `t` is never used; the string appended is the
current wall clock at encoding, shifted into the configured zone and
rendered with the fixed layout `"2006/01/02 15:04:05"`. -/

/-- The installed `EncodeTime` closure: `recordTime` is the time zap
attached to the record (ignored by the code), `now` the wall clock at
encoding, `off` the configured zone's offset. -/
def zapEncodeTime (_recordTime now off : Nat) : String :=
  formatStdLogTime (now + off)

/-- Modelled from the spec: the timestamp the spec promises — the moment of
encoding, converted to the configured zone, rendered with layout
`"2006/01/02 15:04:05"`. -/
def specWallClockTimestamp (now off : Nat) : String :=
  formatStdLogTime (now + off)

/-! ## The Log / SugaredLogger convenience call

`Log(msg, params, err)` (identical in src/log.go and
src/logger/logger.go): flatten the params map into a key-value slice; with
an error and no params call `sugar.Error(err)` (message = the error text),
with an error and params call `sugar.Errorw(err.Error(), build...)`,
without an error call `sugar.Info(msg)` or `sugar.Infow(msg, build...)`.
A `nil` map is `none`; a present map is `some` of its entries. -/

/-- One emitted record: level, primary message, structured fields. -/
structure LogRecord (α : Type) where
  level : Level
  message : String
  fields : List (String × α)
deriving DecidableEq

/-- `Log.Log` / `SugaredLogger.Log`. -/
def sugaredLog {α : Type} (msg : String) (params : Option (List (String × α)))
    (err : Option String) : LogRecord α :=
  let build : List (String × α) := match params with
    | none => []
    | some ps => ps
  match err with
  | some e => match params with
    | none => ⟨.error, e, []⟩
    | some _ => ⟨.error, e, build⟩
  | none => match params with
    | none => ⟨.info, msg, []⟩
    | some _ => ⟨.info, msg, build⟩

/-! ## Logger construction state

Package `gorc` (src/log.go): `newLogger` stores the resolved log file and
the loaded `Asia/Jakarta` location in the returned `Log` value; the
accessors are methods reading those per-instance fields.

Package `logger` (src/logger/logger.go): `filename` (initial value
`"stdout"`) and `timeLocation` are package-level variables; `newLogger`
assigns `timeLocation = opt.Time` on every call and assigns `filename`
only when `dir != ""`; `GetOutputFile`/`GetTimeLocation` are top-level
functions reading the package variables, so every construction rewrites
what they return. -/

/-- The `Log` value of package `gorc` (the fields the accessors read). -/
structure GorcLog where
  logFile : String
  timeOffset : Nat
deriving DecidableEq

/-- `newLogger` of package `gorc` (src/log.go): always `Asia/Jakarta`,
log file from `makeLogFile(create(dir), prefix, loc)`. -/
def gorcNewLogger (dir pfx : String) (now : Nat) : GorcLog :=
  ⟨makeLogFile (gorcCreate dir) pfx jakartaOffset now, jakartaOffset⟩

/-- `Log.GetOutputFile` (src/log.go). -/
def GorcLog.getOutputFile (l : GorcLog) : String := l.logFile

/-- `Log.GetTimeLocation` (src/log.go). -/
def GorcLog.getTimeLocation (l : GorcLog) : Nat := l.timeOffset

/-- The package-level variables of package `logger`. -/
structure LoggerPkgState where
  filename : String
  timeLocation : Option Nat
deriving DecidableEq

/-- Initial values of the package variables: `filename = "stdout"`,
`timeLocation` unset. -/
def loggerPkgInit : LoggerPkgState := ⟨"stdout", none⟩

/-- `newLogger` of package `logger` (src/logger/logger.go) as a transition
on the package state: default the level and zone, always overwrite
`timeLocation`, overwrite `filename` only when `dir != ""`. -/
def loggerNewLoggerStep (dir pfx : String) (optTime : Option Nat) (now : Nat)
    (s : LoggerPkgState) : LoggerPkgState :=
  let tz := optTime.getD jakartaOffset
  ⟨if dir ≠ "" then makeLogFile (loggerCreate dir) pfx tz now else s.filename, some tz⟩

/-- `GetOutputFile` of package `logger`: reads the package variable. -/
def loggerGetOutputFile (s : LoggerPkgState) : String := s.filename

/-- `GetTimeLocation` of package `logger`: reads the package variable. -/
def loggerGetTimeLocation (s : LoggerPkgState) : Option Nat := s.timeLocation

/-! ## Claims about the identifier generator -/

/-- C1 (counterexample): the claim quantifies over every `N`, but the
counter is a `uint64` and wraps: with the same hostname and a random source
that happens to repeat, call `1` and call `2^64 + 1` of the same process
return the *same* identifier, so the identifiers of `N = 2^64 + 1` calls
are not pairwise distinct (and the numeric suffix, having wrapped to
`000000` at call `2^64`, is not strictly increasing either). -/
theorem requestID_wraparound_collision :
    RequestID "h" false [some (List.replicate 12 0)] 1 =
      RequestID "h" false [some (List.replicate 12 0)] (uint64Mod + 1) ∧
    (1 : Nat) ≠ uint64Mod + 1 := by
  constructor
  · decide
  · decide

/-- C1 (amended): within the first `2^64` calls of one process the
identifiers are pairwise distinct whatever the random source produced, the
counter value is strictly increasing across sequential calls while it has
not wrapped, and the first call formats counter value `1` (the process-wide
counter starts at zero and each call atomically adds exactly 1, modulo
`2^64`). -/
theorem requestID_unique_monotone (host : String) (e : Bool)
    (src1 src2 : List (Option (List Nat))) (i j : Nat) (id1 id2 : String)
    (hi : 1 ≤ i) (hij : i < j) (hj : j ≤ uint64Mod)
    (h1 : RequestID host e src1 i = some id1)
    (h2 : RequestID host e src2 j = some id2) :
    id1 ≠ id2 ∧ (j < uint64Mod → counterValue i < counterValue j) ∧
      counterValue 1 = 1 := by
  have hiM : i < uint64Mod := lt_of_lt_of_le hij hj
  have hvi : counterValue i = i := Nat.mod_eq_of_lt hiM
  have hvne : counterValue i ≠ counterValue j := by
    rcases eq_or_lt_of_le hj with hje | hjlt
    · have : counterValue j = 0 := by
        unfold counterValue
        rw [← hje, Nat.mod_self]
      rw [hvi, this]; omega
    · unfold counterValue at hvi ⊢
      rw [hvi, Nat.mod_eq_of_lt hjlt]; omega
  refine ⟨?_, ?_, by decide⟩
  · unfold RequestID at h1 h2
    cases hg1 : genB64Loop (List.replicate 12 0) src1 with
    | none => rw [hg1] at h1; cases h1
    | some r1 =>
      rw [hg1] at h1
      cases hg2 : genB64Loop (List.replicate 12 0) src2 with
      | none => rw [hg2] at h2; cases h2
      | some r2 =>
        rw [hg2] at h2
        have e1 := Option.some.inj h1
        have e2 := Option.some.inj h2
        intro heq
        rw [← e1, ← e2] at heq
        have hdata : (resolveHost host e).data ++ (r1 ++ '-' :: pad6 (counterValue i)) =
            (resolveHost host e).data ++ (r2 ++ '-' :: pad6 (counterValue j)) := by
          simpa using congrArg String.data heq
        have htail := List.append_inj_right hdata rfl
        have hlen : r1.length = r2.length := by
          rw [genB64Loop_length _ _ _ hg1, genB64Loop_length _ _ _ hg2]
        have hsplit := List.append_inj htail hlen
        have hcons := hsplit.2
        have hpad : pad6 (counterValue i) = pad6 (counterValue j) :=
          (List.cons.inj hcons).2
        exact hvne (pad6_inj _ _ hpad)
  · intro hjlt
    unfold counterValue at hvi ⊢
    rw [hvi, Nat.mod_eq_of_lt hjlt]
    exact hij

/-- C1 (witness): calls 1 and 2 of a process return
`hAAAAAAAAAA-000001` and `hAAAAAAAAAA-000002`, which differ. -/
theorem requestID_unique_monotone_witness :
    RequestID "h" false [some (List.replicate 12 0)] 1 = some "hAAAAAAAAAA-000001" ∧
    RequestID "h" false [some (List.replicate 12 0)] 2 = some "hAAAAAAAAAA-000002" ∧
    ("hAAAAAAAAAA-000001" : String) ≠ "hAAAAAAAAAA-000002" :=
  ⟨by decide, by decide,
    (requestID_unique_monotone "h" false [some (List.replicate 12 0)]
      [some (List.replicate 12 0)] 1 2 "hAAAAAAAAAA-000001" "hAAAAAAAAAA-000002"
      (by decide) (by decide) (by decide) (by decide) (by decide)).1⟩

/-- C2 (counterexample): the identifier has *no* `'.'` between the
hostname and the random characters — `RequestID` concatenates them
directly — so the claimed form `<host>.<random10>-<counter6>` is wrong:
with hostname `"h"` the first identifier is `hAAAAAAAAAA-000001`, not
`h.AAAAAAAAAA-000001`, and contains no dot at all. -/
theorem requestID_no_dot_separator :
    RequestID "h" false [some (List.replicate 12 0)] 1 = some "hAAAAAAAAAA-000001" ∧
    ("hAAAAAAAAAA-000001" : String) ≠ "h.AAAAAAAAAA-000001" ∧
    '.' ∉ "hAAAAAAAAAA-000001".data := by
  refine ⟨by decide, by decide, by decide⟩

/-- C2 (amended): every string `RequestID` returns has the form
`<host><random10>-<counter6>` — the hostname (the machine hostname, or
`"localhost"` when lookup fails or is empty) immediately followed by
exactly 10 characters of the standard base64 alphabet with `+` and `/`
removed, then `'-'`, then the counter rendered `%06d`; no `'.'` separator
is inserted. -/
theorem requestID_format (host : String) (e : Bool) (src : List (Option (List Nat)))
    (k : Nat) (id : String) (h : RequestID host e src k = some id) :
    ∃ r : List Char,
      id = String.mk ((resolveHost host e).data ++ r ++ '-' :: pad6 (counterValue k)) ∧
      r.length = 10 ∧ ∀ c ∈ r, c ∈ b64Alphabet ∧ c ≠ '+' ∧ c ≠ '/' := by
  unfold RequestID at h
  cases hg : genB64Loop (List.replicate 12 0) src with
  | none => rw [hg] at h; cases h
  | some r =>
    rw [hg] at h
    exact ⟨r, (Option.some.inj h).symm, genB64Loop_length _ _ _ hg,
      genB64Loop_chars _ _ _ hg⟩

/-- C2 (witness): with an empty hostname the fallback `localhost` is used
and the first identifier is `localhostAAAAAAAAAA-000001`, matching the
amended form. -/
theorem requestID_format_witness :
    RequestID "" false [some (List.replicate 12 0)] 1 = some "localhostAAAAAAAAAA-000001" ∧
    ∃ r : List Char,
      ("localhostAAAAAAAAAA-000001" : String) =
        String.mk ((resolveHost "" false).data ++ r ++ '-' :: pad6 (counterValue 1)) ∧
      r.length = 10 ∧ ∀ c ∈ r, c ∈ b64Alphabet ∧ c ≠ '+' ∧ c ≠ '/' :=
  ⟨by decide, requestID_format "" false [some (List.replicate 12 0)] 1
    "localhostAAAAAAAAAA-000001" (by decide)⟩

/-- C3 (code bug): `RequestID` discards the error returned by
`crypto/rand.Read`. When the single read fails (buffer left zeroed), the
call still *succeeds* and returns the degraded identifier
`hAAAAAAAAAA-000001` — the random part is base64 of twelve zero bytes —
instead of surfacing a caller-visible error as the spec requires; the
function's signature has no error channel at all. -/
theorem requestID_swallows_rand_failure :
    RequestID "h" false [none] 1 = some "hAAAAAAAAAA-000001" := by decide

/-! ## Claims about logger configuration and logging -/

/-- C4: the permanent injected fields of the constructed logger are exactly
trace-id and ref-id when ref-id is non-empty and with-trace is set, ref-id
alone when only ref-id is set, trace-id alone when only with-trace is set,
and none otherwise — in both `newConfig` implementations. -/
theorem initial_fields_policy (dev : Bool) (o : List String) (f tv r : String)
    (lvl : Int) (toff : Option Nat) (hr : r ≠ "") :
    (gorcNewConfig ⟨dev, true, r, o⟩ f tv).initialFields =
      [("trace-id", tv), ("ref-id", r)] ∧
    (gorcNewConfig ⟨dev, false, r, o⟩ f tv).initialFields = [("ref-id", r)] ∧
    (gorcNewConfig ⟨dev, true, "", o⟩ f tv).initialFields = [("trace-id", tv)] ∧
    (gorcNewConfig ⟨dev, false, "", o⟩ f tv).initialFields = [] ∧
    (loggerNewConfig ⟨lvl, toff, true, r, o⟩ f tv).initialFields =
      [("trace-id", tv), ("ref-id", r)] ∧
    (loggerNewConfig ⟨lvl, toff, false, r, o⟩ f tv).initialFields = [("ref-id", r)] ∧
    (loggerNewConfig ⟨lvl, toff, true, "", o⟩ f tv).initialFields = [("trace-id", tv)] ∧
    (loggerNewConfig ⟨lvl, toff, false, "", o⟩ f tv).initialFields = [] := by
  refine ⟨?_, ?_, ?_, ?_, ?_, ?_, ?_, ?_⟩ <;>
    simp [gorcNewConfig, loggerNewConfig, injectedInitialFields, hr]

/-- C4 (witness): the four cases at `refID = "X"`, `traceVal = "T"`. -/
theorem initial_fields_policy_witness :
    (gorcNewConfig ⟨true, true, "X", []⟩ "f" "T").initialFields =
      [("trace-id", "T"), ("ref-id", "X")] ∧
    (gorcNewConfig ⟨true, false, "X", []⟩ "f" "T").initialFields = [("ref-id", "X")] ∧
    (gorcNewConfig ⟨true, true, "", []⟩ "f" "T").initialFields = [("trace-id", "T")] ∧
    (gorcNewConfig ⟨true, false, "", []⟩ "f" "T").initialFields = [] := by
  have h := initial_fields_policy true [] "f" "T" "X" LLvlProduction none (by decide)
  exact ⟨h.1, h.2.1, h.2.2.1, h.2.2.2.1⟩

/-- C5: `Log(msg, params, err)` logs at info level with message `msg` (and
the flattened params as fields when given) when `err` is absent, and at
error level with the error text as message (plus the flattened params when
given) when `err` is present; in particular `Log("m", nil, nil)` is an info
record with message `"m"` and `Log("", nil, someErr)` is an error record
whose message is the error text. -/
theorem log_convenience (α : Type) (msg e : String) (ps : List (String × α)) :
    sugaredLog msg (none : Option (List (String × α))) none = ⟨.info, msg, []⟩ ∧
    sugaredLog msg (some ps) none = ⟨.info, msg, ps⟩ ∧
    sugaredLog msg (none : Option (List (String × α))) (some e) = ⟨.error, e, []⟩ ∧
    sugaredLog msg (some ps) (some e) = ⟨.error, e, ps⟩ ∧
    sugaredLog "m" (none : Option (List (String × α))) none = ⟨.info, "m", []⟩ ∧
    sugaredLog "" (none : Option (List (String × α))) (some e) = ⟨.error, e, []⟩ :=
  ⟨rfl, rfl, rfl, rfl, rfl, rfl⟩

/-- C6 (counterexample): in package `logger`, an empty directory does *not*
resolve to the default directory — `newLogger` leaves the package-level
`filename` at its initial value `"stdout"`, which is no file path under
`"log"` (it contains no `/` at all). -/
theorem logger_empty_dir_is_stdout :
    loggerGetOutputFile (loggerNewLoggerStep "" "" none 1709571600 loggerPkgInit) =
      "stdout" ∧
    '/' ∉ ("stdout" : String).data ∧
    ("stdout" : String) ≠ "log/2024-03-05.log" := by
  refine ⟨rfl, by decide, by decide⟩

/-- C6 (amended): in package `gorc` an empty directory resolves to the
default directory name `"log"` (for every prefix); in both packages, on a
date of 2024-03-05 in the configured zone, directory `"d"` with empty
prefix resolves to `d/2024-03-05.log` and prefix `"svc"` to
`d/svc-2024-03-05.log`; in package `logger` an empty directory instead
leaves the output at the package default (initially `"stdout"`). -/
theorem logfile_path_resolution (now : Nat) (pfx2 : String) (s : LoggerPkgState)
    (hdate : dateOfEpoch (now + jakartaOffset) = (2024, 3, 5)) :
    (∀ q : String, makeLogFile (gorcCreate "") q jakartaOffset now =
      makeLogFile "log" q jakartaOffset now) ∧
    makeLogFile (gorcCreate "") "" jakartaOffset now = "log/2024-03-05.log" ∧
    makeLogFile (gorcCreate "d") "" jakartaOffset now = "d/2024-03-05.log" ∧
    makeLogFile (gorcCreate "d") "svc" jakartaOffset now = "d/svc-2024-03-05.log" ∧
    loggerGetOutputFile (loggerNewLoggerStep "" pfx2 none now s) = s.filename := by
  have hfmt : formatStdLogFile (now + jakartaOffset) = "2024-03-05" := by
    unfold formatStdLogFile
    rw [hdate]
    rfl
  refine ⟨fun q => rfl, ?_, ?_, ?_, rfl⟩ <;>
    · unfold makeLogFile
      rw [hfmt]
      rfl

/-- C6 (witness): at the instant 2024-03-05 00:00:00 Asia/Jakarta
(epoch 1709571600). -/
theorem logfile_path_resolution_witness :
    makeLogFile (gorcCreate "") "" jakartaOffset 1709571600 = "log/2024-03-05.log" ∧
    makeLogFile (gorcCreate "d") "" jakartaOffset 1709571600 = "d/2024-03-05.log" ∧
    makeLogFile (gorcCreate "d") "svc" jakartaOffset 1709571600 = "d/svc-2024-03-05.log" := by
  have h := logfile_path_resolution 1709571600 "p" loggerPkgInit (by decide)
  exact ⟨h.2.1, h.2.2.1, h.2.2.2.1⟩

/-- C7: the development branch selects minimum level debug and console
encoding (a debug call passes the level gate); the production branch
selects minimum level info, JSON encoding, and sampling with `Initial=100`,
`Thereafter=100` (first 100 per classification per second verbatim, then
every 100th), and a debug call does not pass the level gate — in both the
`gorc` config (development flag) and the `logger` config (level constant). -/
theorem level_encoding_selection (wt : Bool) (r : String) (o : List String)
    (f tv : String) (toff : Option Nat) :
    (gorcNewConfig ⟨true, wt, r, o⟩ f tv).level = .debug ∧
    (gorcNewConfig ⟨true, wt, r, o⟩ f tv).encoding = .console ∧
    (gorcNewConfig ⟨true, wt, r, o⟩ f tv).sampling = none ∧
    (gorcNewConfig ⟨false, wt, r, o⟩ f tv).level = .info ∧
    (gorcNewConfig ⟨false, wt, r, o⟩ f tv).encoding = .json ∧
    (gorcNewConfig ⟨false, wt, r, o⟩ f tv).sampling = some ⟨100, 100⟩ ∧
    levelEnabled (gorcNewConfig ⟨true, wt, r, o⟩ f tv) .debug = true ∧
    levelEnabled (gorcNewConfig ⟨false, wt, r, o⟩ f tv) .debug = false ∧
    (loggerNewConfig ⟨LLvlDevelopment, toff, wt, r, o⟩ f tv).level = .debug ∧
    (loggerNewConfig ⟨LLvlDevelopment, toff, wt, r, o⟩ f tv).encoding = .console ∧
    (loggerNewConfig ⟨LLvlProduction, toff, wt, r, o⟩ f tv).level = .info ∧
    (loggerNewConfig ⟨LLvlProduction, toff, wt, r, o⟩ f tv).encoding = .json ∧
    (loggerNewConfig ⟨LLvlProduction, toff, wt, r, o⟩ f tv).sampling = some ⟨100, 100⟩ ∧
    levelEnabled (loggerNewConfig ⟨LLvlProduction, toff, wt, r, o⟩ f tv) .debug = false ∧
    levelEnabled (loggerNewConfig ⟨LLvlDevelopment, toff, wt, r, o⟩ f tv) .debug = true :=
  ⟨rfl, rfl, rfl, rfl, rfl, rfl, rfl, rfl, rfl, rfl, rfl, rfl, rfl, rfl, rfl⟩

/-- C8: both derived sink lists start with the primary output path and are
followed by every extra output in the order given, with no de-duplication:
the occurrence count of any destination is its count among the extras,
plus one if it is also the primary path — so an extra listed twice is
written twice. -/
theorem sink_fanout (opt : GorcLogOptions) (lopt : LoggerPkgOptions) (f tv d : String) :
    (gorcNewConfig opt f tv).outputPaths = f :: opt.outputFile ∧
    (gorcNewConfig opt f tv).errorOutputPaths = f :: opt.outputFile ∧
    (loggerNewConfig lopt f tv).outputPaths = f :: lopt.outputFile ∧
    (loggerNewConfig lopt f tv).errorOutputPaths = f :: lopt.outputFile ∧
    List.count d (gorcNewConfig opt f tv).outputPaths =
      (if d = f then 1 else 0) + List.count d opt.outputFile ∧
    List.count "stdout" (gorcNewConfig ⟨opt.development, opt.withTrace, opt.refID,
      ["stdout", "stdout"]⟩ f tv).outputPaths ≥ 2 := by
  refine ⟨rfl, rfl, rfl, rfl, ?_, ?_⟩
  · have hout : (gorcNewConfig opt f tv).outputPaths = f :: opt.outputFile := rfl
    rw [hout]
    by_cases hdf : d = f <;> simp [List.count_cons, hdf, Nat.add_comm]
  · have hout : (gorcNewConfig ⟨opt.development, opt.withTrace, opt.refID,
        ["stdout", "stdout"]⟩ f tv).outputPaths = f :: ["stdout", "stdout"] := rfl
    rw [hout]
    simp [List.count_cons]

/-- C10: the installed timestamp encoder ignores the record's own time
argument entirely; what it appends is the wall clock at encoding, shifted
into the configured zone and rendered with the fixed layout
`"2006/01/02 15:04:05"` — e.g. at epoch 1709571600 with the Jakarta offset
it renders `2024/03/05 00:00:00` whatever the record's time was. -/
theorem encode_time_ignores_record_time (t1 t2 now off : Nat) :
    zapEncodeTime t1 now off = zapEncodeTime t2 now off ∧
    zapEncodeTime t1 now off = specWallClockTimestamp now off ∧
    zapEncodeTime t1 1709571600 jakartaOffset = "2024/03/05 00:00:00" :=
  ⟨rfl, rfl, rfl⟩

/-- C9 (counterexample): the accessors of package `logger` read package
variables, not instance state: after constructing a logger with directory
`"a"` the output-file accessor returns `a/2024-03-05.log`, but constructing
a *second* logger with directory `"b"` overwrites the package variable, and
the accessor then returns `b/2024-03-05.log` — the value fixed at the first
construction is no longer returned. -/
theorem logger_accessor_overwritten :
    loggerGetOutputFile (loggerNewLoggerStep "a" "" none 1709571600 loggerPkgInit) =
      "a/2024-03-05.log" ∧
    loggerGetOutputFile (loggerNewLoggerStep "b" "" none 1709571600
      (loggerNewLoggerStep "a" "" none 1709571600 loggerPkgInit)) =
      "b/2024-03-05.log" ∧
    ("b/2024-03-05.log" : String) ≠ "a/2024-03-05.log" := by
  refine ⟨by decide, by decide, by decide⟩

/-- C9 (amended): the *instance* accessors of package `gorc`'s `Log` return
exactly the output path and zone fixed when that instance was constructed,
verbatim; the package-level accessors of package `logger` instead return
the values set by the *most recent* construction — a construction with a
non-empty directory rewrites the output path they return, one with an empty
directory leaves the previous path in place, and every construction
rewrites the zone. -/
theorem accessors_reflect_construction (dir pfx : String) (now : Nat)
    (dir2 pfx2 : String) (now2 : Nat) (toff : Option Nat) (s : LoggerPkgState)
    (hd : dir2 ≠ "") :
    (gorcNewLogger dir pfx now).getOutputFile =
      makeLogFile (gorcCreate dir) pfx jakartaOffset now ∧
    (gorcNewLogger dir pfx now).getTimeLocation = jakartaOffset ∧
    loggerGetOutputFile (loggerNewLoggerStep dir2 pfx2 toff now2 s) =
      makeLogFile (loggerCreate dir2) pfx2 (toff.getD jakartaOffset) now2 ∧
    loggerGetTimeLocation (loggerNewLoggerStep dir2 pfx2 toff now2 s) =
      some (toff.getD jakartaOffset) ∧
    loggerGetOutputFile (loggerNewLoggerStep "" pfx2 toff now2 s) = s.filename := by
  refine ⟨rfl, rfl, ?_, rfl, ?_⟩
  · simp [loggerNewLoggerStep, loggerGetOutputFile, hd]
  · simp [loggerNewLoggerStep, loggerGetOutputFile]

/-- C9 (witness): concrete constructions with directories `"a"` and `"b"`. -/
theorem accessors_reflect_construction_witness :
    (gorcNewLogger "a" "" 1709571600).getOutputFile =
      makeLogFile (gorcCreate "a") "" jakartaOffset 1709571600 ∧
    (gorcNewLogger "a" "" 1709571600).getTimeLocation = jakartaOffset ∧
    loggerGetOutputFile (loggerNewLoggerStep "b" "p" none 1709571600 loggerPkgInit) =
      makeLogFile (loggerCreate "b") "p" ((none : Option Nat).getD jakartaOffset)
        1709571600 ∧
    loggerGetTimeLocation (loggerNewLoggerStep "b" "p" none 1709571600 loggerPkgInit) =
      some ((none : Option Nat).getD jakartaOffset) ∧
    loggerGetOutputFile (loggerNewLoggerStep "" "p" none 1709571600 loggerPkgInit) =
      loggerPkgInit.filename :=
  accessors_reflect_construction "a" "" 1709571600 "b" "p" 1709571600 none
    loggerPkgInit (by decide)
